import Mathlib

/-!
Verification development for the RAG summarization backend
(`src/backend/main.py` of the `website_summarizer` repository).

Text is modelled as `List Char` (Python `str`).  Each regular-expression
substitution of `clean_text` is embedded as a left-to-right scanner that
mirrors Python `re.sub` semantics for its concrete pattern: leftmost match,
greedy quantifiers, continuation at the match end (replaced text is not
rescanned).  `.` never matches a newline; `\s` is modelled on the ASCII
whitespace characters.
-/

/-- Python `\s` (ASCII range): space, tab, newline, carriage return,
vertical tab, form feed. -/
def pySpace (c : Char) : Bool :=
  c == ' ' || c == '\t' || c == '\n' || c == '\r' || c == '\x0b' || c == '\x0c'

/-- Suffix of `l` strictly after the last character satisfying `p`.
Only meaningful when some character of `l` satisfies `p`. -/
def afterLast (p : Char → Bool) : List Char → List Char
  | [] => []
  | c :: rest =>
    if rest.any p then afterLast p rest
    else if p c then rest
    else afterLast p rest

/-- One fuelled scan of `re.sub(r'\|.*\|', '', text)`: at a `'|'` with a
second `'|'` later on the same line, the match runs through the last `'|'`
of that line and is deleted. -/
def subTableF : Nat → List Char → List Char
  | 0, l => l
  | _ + 1, [] => []
  | fuel + 1, c :: rest =>
    if c = '|' ∧ '|' ∈ rest.takeWhile (fun x => x != '\n') then
      subTableF fuel
        (afterLast (fun x => x == '|') (rest.takeWhile (fun x => x != '\n'))
          ++ rest.dropWhile (fun x => x != '\n'))
    else c :: subTableF fuel rest

/-- Guard of `re.sub(r'\[\d+\]', '', text)` at a position whose remaining
input is `'['` followed by `rest`: a nonempty maximal digit run followed
immediately by `']'`. -/
def citAt (rest : List Char) : Bool :=
  match rest.takeWhile Char.isDigit, rest.drop (rest.takeWhile Char.isDigit).length with
  | _ :: _, ']' :: _ => true
  | _, _ => false

/-- One fuelled scan of `re.sub(r'\[\d+\]', '', text)`. -/
def subCitF : Nat → List Char → List Char
  | 0, l => l
  | _ + 1, [] => []
  | fuel + 1, c :: rest =>
    if c = '[' ∧ citAt rest = true then
      subCitF fuel (rest.drop ((rest.takeWhile Char.isDigit).length + 1))
    else c :: subCitF fuel rest

/-- Guard of `re.sub(r'#+\s.*', '', text)` at a `'#'` whose remaining input
is `rest`: the character following the maximal `'#'` run is whitespace
(`\s` may be a newline, in which case `.*` consumes the next line). -/
def hdrAt (rest : List Char) : Bool :=
  match rest.drop (rest.takeWhile (fun x => x == '#')).length with
  | w :: _ => pySpace w
  | [] => false

/-- One fuelled scan of `re.sub(r'#+\s.*', '', text)`. -/
def subHdrF : Nat → List Char → List Char
  | 0, l => l
  | _ + 1, [] => []
  | fuel + 1, c :: rest =>
    if c = '#' ∧ hdrAt rest = true then
      subHdrF fuel
        (((rest.drop (rest.takeWhile (fun x => x == '#')).length).drop 1).dropWhile
          (fun x => x != '\n'))
    else c :: subHdrF fuel rest

/-- One fuelled scan of `re.sub(r'\n\s*\n', '\n', text)`: at a `'\n'`
followed by a whitespace run containing another `'\n'`, everything through
the last `'\n'` of the run is replaced by a single `'\n'`. -/
def subNlF : Nat → List Char → List Char
  | 0, l => l
  | _ + 1, [] => []
  | fuel + 1, c :: rest =>
    if c = '\n' ∧ '\n' ∈ rest.takeWhile pySpace then
      '\n' :: subNlF fuel
        (afterLast (fun x => x == '\n') (rest.takeWhile pySpace)
          ++ rest.dropWhile pySpace)
    else c :: subNlF fuel rest

/-- `re.sub(r'\|.*\|', '', text)`. -/
def sub_table (l : List Char) : List Char := subTableF l.length l

/-- `re.sub(r'\[\d+\]', '', text)`. -/
def sub_cit (l : List Char) : List Char := subCitF l.length l

/-- `re.sub(r'#+\s.*', '', text)`. -/
def sub_hdr (l : List Char) : List Char := subHdrF l.length l

/-- `re.sub(r'\n\s*\n', '\n', text)`. -/
def sub_nl (l : List Char) : List Char := subNlF l.length l

/-- Python `str.strip()`: remove leading and trailing whitespace. -/
def pystrip (l : List Char) : List Char :=
  ((l.dropWhile pySpace).reverse.dropWhile pySpace).reverse

/-- `clean_text` (main.py line 92-93): the four substitutions in source
order, then `strip()`. -/
def clean_text (l : List Char) : List Char :=
  pystrip (sub_nl (sub_hdr (sub_cit (sub_table l))))

/-- Some position matches `\|.*\|`. -/
def hasTable : List Char → Bool
  | [] => false
  | c :: rest =>
    decide (c = '|' ∧ '|' ∈ rest.takeWhile (fun x => x != '\n')) || hasTable rest

/-- Some position matches `\[\d+\]`. -/
def hasCit : List Char → Bool
  | [] => false
  | c :: rest => decide (c = '[' ∧ citAt rest = true) || hasCit rest

/-- Some position matches `#+\s.*`. -/
def hasHdr : List Char → Bool
  | [] => false
  | c :: rest => decide (c = '#' ∧ hdrAt rest = true) || hasHdr rest

/-- Some position matches `\n\s*\n`. -/
def hasNl : List Char → Bool
  | [] => false
  | c :: rest => decide (c = '\n' ∧ '\n' ∈ rest.takeWhile pySpace) || hasNl rest

/-!
  Chunker

`chunk_text_by_char` (main.py lines 95-100).  The `while start < len(text)`
loop is embedded with an explicit fuel counter; `text.length + 1` units of
fuel are always sufficient under the contract `overlap < size` (claim C9).
With `overlap ≥ size` the Python loop never terminates, so no total
function models it; all chunker claims carry the contract hypothesis.
-/

/-- The loop body of `chunk_text_by_char`: while `start < len(text)`,
append `text[start:start+size]` and advance `start` by `size - overlap`.
Returns `none` if the fuel runs out. -/
def chunkFromFuel : Nat → List Char → Nat → Nat → Nat → Option (List (List Char))
  | 0, _, _, _, _ => none
  | fuel + 1, text, size, overlap, start =>
    if start < text.length then
      match chunkFromFuel fuel text size overlap (start + (size - overlap)) with
      | some rest => some (((text.drop start).take size) :: rest)
      | none => none
    else some []

/-- `chunk_text_by_char(text, chunk_size, overlap)`. -/
def chunk_text_by_char (text : List Char) (size overlap : Nat) : List (List Char) :=
  if text.length ≤ size then [text]
  else (chunkFromFuel (text.length + 1) text size overlap 0).getD []

/-- Closed form of the loop's output: one window per start position
`start + k * (size - overlap)` below `text.length`. -/
def chunksFrom (text : List Char) (size overlap start : Nat) : List (List Char) :=
  (List.range ((text.length - start + (size - overlap) - 1) / (size - overlap))).map
    (fun k => (text.drop (start + k * (size - overlap))).take size)

/-!
  Prompt templates and the structured summary

`PROMPT_TEMPLATES` (main.py lines 102-113) and the reduce-phase JSON
handling (lines 158-162).
-/

/-- The apostrophe character, as a string. -/
def apos : String := String.singleton (Char.ofNat 39)

/-- A word wrapped in single quotes, as it appears in the prompt texts. -/
def qt (s : String) : String := apos ++ s ++ apos

/-- The `map`/`reduce`/`qa` prompt pair set of one language. -/
structure PromptSet where
  map_system : String
  map_user : String
  reduce_system : String
  reduce_user : String
  qa_system : String
  qa_user : String
deriving DecidableEq

/-- `PROMPT_TEMPLATES["en"]`. -/
def enPrompts : PromptSet :=
  { map_system := "Summarize the key points of the following text in a single, well-written paragraph in English."
    map_user := "Please summarize this text: {chunk}"
    reduce_system := "You are an expert academic research summarizer. Generate a final structured summary in a valid JSON format in English. The JSON keys must be: "
      ++ qt "research_objective" ++ ", " ++ qt "methods" ++ ", " ++ qt "main_results"
      ++ ", " ++ qt "conclusions" ++ ". If a key" ++ apos
      ++ "s information is not found, return an empty string."
    reduce_user := "Here are the summaries:\n\n---\n{combined_summary}\n---"
    qa_system := "You are a helpful Q&A assistant. Based on the provided context, answer the user"
      ++ apos ++ "s question **in the same language they used for the question**. If the context isn"
      ++ apos ++ "t relevant or doesn" ++ apos
      ++ "t contain the answer, state that you cannot answer based on the information."
    qa_user := "Context:\n---\n{context}\n---\nQuestion: {question}" }

/-- `PROMPT_TEMPLATES["id"]`. -/
def idPrompts : PromptSet :=
  { map_system := "Ringkaslah poin-poin utama dari teks berikut dalam satu paragraf yang ditulis dengan baik dalam Bahasa Indonesia."
    map_user := "Tolong ringkas teks ini: {chunk}"
    reduce_system := "Anda adalah seorang ahli peringkas riset akademis. Buatlah sebuah ringkasan akhir terstruktur dalam format JSON yang valid dalam Bahasa Indonesia. Kunci JSON harus: "
      ++ qt "research_objective" ++ ", " ++ qt "methods" ++ ", " ++ qt "main_results"
      ++ ", " ++ qt "conclusions"
      ++ ". Jika informasi untuk kunci tidak ditemukan, kembalikan string kosong."
    reduce_user := "Berikut adalah kumpulan ringkasan:\n\n---\n{combined_summary}\n---"
    qa_system := "Anda adalah asisten Tanya Jawab yang membantu. Berdasarkan konteks yang diberikan, jawab pertanyaan pengguna **dalam bahasa yang sama dengan yang mereka gunakan untuk bertanya**. Jika konteks tidak relevan atau tidak berisi jawaban, nyatakan bahwa Anda tidak dapat menjawab berdasarkan informasi yang diberikan."
    qa_user := "Konteks:\n---\n{context}\n---\nPertanyaan: {question}" }

/-- The `PROMPT_TEMPLATES` dictionary: `none` models a missing key. -/
def PROMPT_TEMPLATES (lang : String) : Option PromptSet :=
  if lang = "en" then some enPrompts
  else if lang = "id" then some idPrompts
  else none

/-- Line 134: `if lang not in PROMPT_TEMPLATES: lang = "en"`. -/
def normalizeLang (lang : String) : String :=
  if (PROMPT_TEMPLATES lang).isSome then lang else "en"

/-- Line 145: `prompts = PROMPT_TEMPLATES[lang]` after normalization. -/
def promptsFor (lang : String) : PromptSet :=
  (PROMPT_TEMPLATES (normalizeLang lang)).getD enPrompts

/-- `dict.get(key, default)` on a parsed JSON object whose values are
modelled as strings (a missing key is absence from the list). -/
def jsonGet (obj : List (String × String)) (key dflt : String) : String :=
  match obj.lookup key with
  | some v => v
  | none => dflt

/-- The `final_summary` dictionary of line 160, with its four fixed
(Indonesian) display keys as fields. -/
structure FinalSummary where
  /-- key "Tujuan Penelitian" -/
  tujuan : String
  /-- key "Metode" -/
  metode : String
  /-- key "Hasil Utama" -/
  hasil : String
  /-- key "Kesimpulan" -/
  kesimpulan : String
deriving DecidableEq

/-- Line 160: each display field is `structured_summary.get(key, "Tidak
ditemukan.")` — the hard-coded Indonesian default, for every language. -/
def buildFinalSummary (obj : List (String × String)) : FinalSummary :=
  { tujuan := jsonGet obj "research_objective" "Tidak ditemukan."
    metode := jsonGet obj "methods" "Tidak ditemukan."
    hasil := jsonGet obj "main_results" "Tidak ditemukan."
    kesimpulan := jsonGet obj "conclusions" "Tidak ditemukan." }

/-!
  The `/summarize` endpoint (main.py lines 131-181)

The external collaborators (Docling conversion, the GGUF language model,
the embedding model, the Chroma store operations) are black boxes; an
`IngestEnv` records each one's behaviour for the request.  The Chroma
client's collections are an association list from collection name to the
stored documents; the observable side effects of the request are returned
as a list of `Effect`s.
-/

/-- Python `str.endswith(suffix)`. -/
def pyEndswith (s suffx : String) : Bool := suffx.data.isSuffixOf s.data

/-- The collection state of the Chroma client: name to stored documents. -/
def Store : Type := List (String × List (List Char))

/-- Observable collaborator calls of a request. -/
inductive Effect where
  | convertCall : Effect
  | llmCall (system : String) : Effect
  | embedCall : Effect
  | createCall (name : String) : Effect
  | addCall (name : String) : Effect
  | deleteCall (name : String) : Effect
deriving DecidableEq

/-- Black-box collaborator behaviour for one `/summarize` request.
`Except.error` models a raised exception. -/
structure IngestEnv where
  /-- `convert_pdf_to_markdown` on the uploaded bytes. -/
  convert : Except String (List Char)
  /-- one map-phase `LLM.create_chat_completion`, given the prompt set
  in use and the chunk. -/
  mapLLM : PromptSet → List Char → Except String String
  /-- the reduce-phase `LLM.create_chat_completion`, given the prompt set
  and the combined intermediate summary. -/
  reduceLLM : PromptSet → String → Except String String
  /-- `json.loads` on the reduce output; `none` models `JSONDecodeError`. -/
  parseJSON : String → Option (List (String × String))
  /-- `EMBEDDING_MODEL.embed_documents` on the retrieval chunks. -/
  embedDocs : List (List Char) → Except String (List (List Rat))
  /-- outcome of `CHROMA_CLIENT.create_collection` (beyond the
  name-already-exists failure, which the model checks itself). -/
  createColl : Except String Unit
  /-- outcome of `collection.add`. -/
  addColl : Except String Unit

/-- The map phase (lines 147-151): one LLM call per chunk, in chunk
order; the first failure aborts.  Also returns the effect trace. -/
def runMap (env : IngestEnv) (prompts : PromptSet) :
    List (List Char) → Except String (List String) × List Effect
  | [] => (Except.ok [], [])
  | c :: cs =>
    match env.mapLLM prompts c with
    | Except.error e => (Except.error e, [Effect.llmCall prompts.map_system])
    | Except.ok s =>
      match runMap env prompts cs with
      | (Except.error e, effs) => (Except.error e, Effect.llmCall prompts.map_system :: effs)
      | (Except.ok rest, effs) => (Except.ok (s :: rest), Effect.llmCall prompts.map_system :: effs)

/-- Lines 177-178: `try: CHROMA_CLIENT.delete_collection(name=document_id)
except Exception: pass` — remove the collection if present, swallow
errors. -/
def rollback (store : Store) (docId : String) : Store :=
  store.filter (fun kv => kv.1 != docId)

/-- Response of `/summarize`: either the JSON payload of line 174 or an
`HTTPException` with its status code and detail. -/
inductive IngestResult where
  | ok (filename : String) (structured_summary : FinalSummary) (document_id : String) : IngestResult
  | err (status : Nat) (detail : String) : IngestResult
deriving DecidableEq

/-- `true` iff the request succeeded. -/
def IngestResult.isOk : IngestResult → Bool
  | IngestResult.ok _ _ _ => true
  | IngestResult.err _ _ => false

/-- The body of the `try` block of `/summarize` (lines 137-174), given the
selected prompt set: either the success payload (the structured summary and
the small-window retrieval chunks to be stored) or the detail of the raised
exception, together with the collaborator-call trace so far.  Python locals
(`cleaned_text`, `text_chunks`, ...) are inlined. -/
def tryIngest (env : IngestEnv) (store : Store) (document_id : String)
    (prompts : PromptSet) :
    Except String (FinalSummary × List (List Char)) × List Effect :=
  match env.convert with
  | Except.error e => (Except.error e, [Effect.convertCall])
  | Except.ok markdown =>
    if clean_text markdown = [] ∨ (clean_text markdown).all pySpace = true then
      (Except.error "Failed to extract meaningful text from PDF.", [Effect.convertCall])
    else
      match runMap env prompts (chunk_text_by_char (clean_text markdown) 3000 200) with
      | (Except.error e, effs) => (Except.error e, Effect.convertCall :: effs)
      | (Except.ok chunk_summaries, effs) =>
        match env.reduceLLM prompts (String.intercalate "\n\n" chunk_summaries) with
        | Except.error e =>
          (Except.error e,
            Effect.convertCall :: effs ++ [Effect.llmCall prompts.reduce_system])
        | Except.ok llm_output =>
          match env.parseJSON llm_output with
          | none =>
            (Except.error "Failed to parse summary from LLM.",
              Effect.convertCall :: effs ++ [Effect.llmCall prompts.reduce_system])
          | some obj =>
            match env.embedDocs (chunk_text_by_char (clean_text markdown) 1000 150) with
            | Except.error e =>
              (Except.error e,
                Effect.convertCall :: effs
                  ++ [Effect.llmCall prompts.reduce_system, Effect.embedCall])
            | Except.ok _ =>
              -- chroma's create_collection raises when the name exists
              if (store.lookup document_id).isSome then
                (Except.error "Collection already exists.",
                  Effect.convertCall :: effs
                    ++ [Effect.llmCall prompts.reduce_system, Effect.embedCall,
                        Effect.createCall document_id])
              else
              match env.createColl with
              | Except.error e =>
                (Except.error e,
                  Effect.convertCall :: effs
                    ++ [Effect.llmCall prompts.reduce_system, Effect.embedCall,
                        Effect.createCall document_id])
              | Except.ok _ =>
                match env.addColl with
                | Except.error e =>
                  (Except.error e,
                    Effect.convertCall :: effs
                      ++ [Effect.llmCall prompts.reduce_system, Effect.embedCall,
                          Effect.createCall document_id, Effect.addCall document_id])
                | Except.ok _ =>
                  (Except.ok (buildFinalSummary obj,
                      chunk_text_by_char (clean_text markdown) 1000 150),
                    Effect.convertCall :: effs
                      ++ [Effect.llmCall prompts.reduce_system, Effect.embedCall,
                          Effect.createCall document_id, Effect.addCall document_id])

/-- The `/summarize` endpoint (lines 131-181).  `document_id` stands for
the freshly generated `uuid.uuid4()` of line 136.  Any exception inside
the `try` block lands in the `except` handler of lines 175-179: delete the
ephemeral collection best-effort (swallowing delete errors), then re-raise
as a 500.  On the add-failure path Python's store momentarily holds the
freshly created empty collection before the handler deletes it; since the
handler's `delete_collection(document_id)` removes exactly that entry, the
final store equals `rollback store document_id` on every failure path, as
returned here. -/
def summarize_pdf (env : IngestEnv) (store : Store)
    (document_id filename lang : String) : IngestResult × Store × List Effect :=
  if pyEndswith filename ".pdf" then
    match tryIngest env store document_id (promptsFor lang) with
    | (Except.error e, effs) =>
      (IngestResult.err 500 ("Internal server error: " ++ e),
        rollback store document_id, effs ++ [Effect.deleteCall document_id])
    | (Except.ok (final_summary, doc_chunks_for_qa), effs) =>
      (IngestResult.ok filename final_summary document_id,
        (document_id, doc_chunks_for_qa) :: store, effs)
  else
    (IngestResult.err 400 "Invalid file type. Please upload a PDF.", store, [])

/-!
  The `/qa` endpoint (main.py lines 183-245)

Vector distances are modelled as rationals.  A tier's query outcome is the
ordered `(text, distance)` result list of the single Chroma query, `none`
modelling a raised exception (missing collection or query failure).
-/

/-- Black-box retrieval outcomes for one `/qa` request. -/
structure QAEnv where
  /-- result of `temp_collection.query(..., n_results=2)`; `none` models
  `get_collection`/`query` raising (missing collection included). -/
  docResult : Option (List (String × Rat))
  /-- result of `main_collection.query(..., n_results=1)`. -/
  mainResult : Option (List (String × Rat))

/-- The request body `QARequest` (lines 119-122). -/
structure QAReq where
  document_id : Option String
  question : String
  lang : String

/-- Observable outcome of `/qa`: either one LLM call on a retrieved
context whose verbatim reply is returned, or the fixed no-context message
with no LLM call. -/
inductive QAOutcome where
  | llmAnswer (context : String) : QAOutcome
  | fixedMessage (msg : String) : QAOutcome
deriving DecidableEq

/-- Python truthiness of `request.document_id` (line 195): `None` and the
empty string are falsy. -/
def truthyId : Option String → Bool
  | none => false
  | some s => !s.isEmpty

/-- `NO_CONTEXT_MESSAGES` (lines 236-239) with the `.get(lang, en)` lookup
of line 240. -/
def NO_CONTEXT_MESSAGES (lang : String) : String :=
  if lang = "id" then
    "Hmm, saya tidak melihat jawaban yang pas dari data saat ini. Bisa jadi pertanyaannya perlu sedikit diperjelas."
  else
    "Hmm, I can" ++ apos
      ++ "t seem to find a suitable answer from the current data. Perhaps the question could be clarified a bit."

/-- Tier 1 (lines 195-208): only entered when `document_id` is truthy;
admitted when the collection query succeeded, returned at least one
neighbor, and the nearest distance is `< 1.0`; the context is the
`"\n\n"`-join of the returned documents.  An empty result raises
`IndexError` on `distances[0][0]`, which the `except` swallows into the
fallback. -/
def tier1Context (env : QAEnv) (req : QAReq) : Option String :=
  if truthyId req.document_id then
    match env.docResult with
    | some ((t, d) :: rest) =>
      if d < 1 then some (String.intercalate "\n\n" (t :: rest.map Prod.fst)) else none
    | some [] => none
    | none => none
  else none

/-- Tier 2 (lines 211-224): admitted when the main-collection query
succeeded, `documents[0]` is non-empty, and the nearest distance is
`< 1.2`. -/
def tier2Context (env : QAEnv) : Option String :=
  match env.mainResult with
  | some ((t, d) :: rest) =>
    if d < 6/5 then some (String.intercalate "\n\n" (t :: rest.map Prod.fst)) else none
  | some [] => none
  | none => none

/-- The `/qa` endpoint (lines 183-245): tier 1, then tier 2 only when
tier 1 did not admit, else the fixed no-context message for the requested
language (and no LLM call, per `QAOutcome.fixedMessage`). -/
def question_answering (env : QAEnv) (req : QAReq) : QAOutcome :=
  match tier1Context env req with
  | some ctx => QAOutcome.llmAnswer ctx
  | none =>
    match tier2Context env with
    | some ctx => QAOutcome.llmAnswer ctx
    | none => QAOutcome.fixedMessage (NO_CONTEXT_MESSAGES req.lang)

/-!
  Concrete collaborator behaviours used by the witnesses
-/

/-- An environment whose conversion step raises. -/
def envFailConvert : IngestEnv :=
  { convert := Except.error "conversion failed"
    mapLLM := fun _ _ => Except.ok "s"
    reduceLLM := fun _ _ => Except.ok "{}"
    parseJSON := fun _ => some []
    embedDocs := fun _ => Except.ok []
    createColl := Except.ok ()
    addColl := Except.ok ()}

/-- An environment in which every collaborator succeeds and the reduce
phase parses to an object with no keys. -/
def envOk : IngestEnv :=
  { convert := Except.ok "hello document".data
    mapLLM := fun _ _ => Except.ok "s"
    reduceLLM := fun _ _ => Except.ok "{}"
    parseJSON := fun _ => some []
    embedDocs := fun _ => Except.ok []
    createColl := Except.ok ()
    addColl := Except.ok ()}

/-- A retrieval environment whose document-scoped query admits. -/
def qaEnvW : QAEnv :=
  { docResult := some [("ctx", 1/2)], mainResult := some [("m", 2)] }

/-- A `/qa` request carrying a document id. -/
def qaReqW : QAReq :=
  { document_id := some "doc-1", question := "q", lang := "en" }

/-!
  Lemmas: the substitution scanners fix pattern-free strings
-/

theorem subTableF_id : ∀ (fuel : Nat) (l : List Char), l.length ≤ fuel →
    hasTable l = false → subTableF fuel l = l := by
  intro fuel
  induction fuel with
  | zero => intro l _ _; cases l <;> rfl
  | succ f ih =>
    intro l hl h
    cases l with
    | nil => rfl
    | cons c rest =>
      rw [hasTable, Bool.or_eq_false_iff] at h
      have hc : ¬ (c = '|' ∧ '|' ∈ rest.takeWhile (fun x => x != '\n')) :=
        of_decide_eq_false h.1
      have hr : rest.length ≤ f := by
        simp only [List.length_cons] at hl; omega
      simp only [subTableF, if_neg hc, ih rest hr h.2]

theorem subCitF_id : ∀ (fuel : Nat) (l : List Char), l.length ≤ fuel →
    hasCit l = false → subCitF fuel l = l := by
  intro fuel
  induction fuel with
  | zero => intro l _ _; cases l <;> rfl
  | succ f ih =>
    intro l hl h
    cases l with
    | nil => rfl
    | cons c rest =>
      rw [hasCit, Bool.or_eq_false_iff] at h
      have hc : ¬ (c = '[' ∧ citAt rest = true) := of_decide_eq_false h.1
      have hr : rest.length ≤ f := by
        simp only [List.length_cons] at hl; omega
      simp only [subCitF, if_neg hc, ih rest hr h.2]

theorem subHdrF_id : ∀ (fuel : Nat) (l : List Char), l.length ≤ fuel →
    hasHdr l = false → subHdrF fuel l = l := by
  intro fuel
  induction fuel with
  | zero => intro l _ _; cases l <;> rfl
  | succ f ih =>
    intro l hl h
    cases l with
    | nil => rfl
    | cons c rest =>
      rw [hasHdr, Bool.or_eq_false_iff] at h
      have hc : ¬ (c = '#' ∧ hdrAt rest = true) := of_decide_eq_false h.1
      have hr : rest.length ≤ f := by
        simp only [List.length_cons] at hl; omega
      simp only [subHdrF, if_neg hc, ih rest hr h.2]

theorem subNlF_id : ∀ (fuel : Nat) (l : List Char), l.length ≤ fuel →
    hasNl l = false → subNlF fuel l = l := by
  intro fuel
  induction fuel with
  | zero => intro l _ _; cases l <;> rfl
  | succ f ih =>
    intro l hl h
    cases l with
    | nil => rfl
    | cons c rest =>
      rw [hasNl, Bool.or_eq_false_iff] at h
      have hc : ¬ (c = '\n' ∧ '\n' ∈ rest.takeWhile pySpace) := of_decide_eq_false h.1
      have hr : rest.length ≤ f := by
        simp only [List.length_cons] at hl; omega
      simp only [subNlF, if_neg hc, ih rest hr h.2]

theorem sub_table_id (l : List Char) (h : hasTable l = false) : sub_table l = l :=
  subTableF_id l.length l le_rfl h

theorem sub_cit_id (l : List Char) (h : hasCit l = false) : sub_cit l = l :=
  subCitF_id l.length l le_rfl h

theorem sub_hdr_id (l : List Char) (h : hasHdr l = false) : sub_hdr l = l :=
  subHdrF_id l.length l le_rfl h

theorem sub_nl_id (l : List Char) (h : hasNl l = false) : sub_nl l = l :=
  subNlF_id l.length l le_rfl h

/-!
  Lemmas: `strip()` is idempotent
-/

theorem dropWhile_dropWhile (p : Char → Bool) (l : List Char) :
    List.dropWhile p (List.dropWhile p l) = List.dropWhile p l := by
  induction l with
  | nil => rfl
  | cons c t ih =>
    by_cases hc : p c = true
    · simp [List.dropWhile_cons, hc, ih]
    · simp [List.dropWhile_cons, hc]

theorem dropWhile_rstrip_fix (p : Char → Bool) (l : List Char)
    (hfix : List.dropWhile p l = l) :
    List.dropWhile p ((l.reverse.dropWhile p).reverse) = (l.reverse.dropWhile p).reverse := by
  cases l with
  | nil => rfl
  | cons c t =>
    have hc : p c = false := by
      by_contra hcc
      have hc' : p c = true := by revert hcc; cases p c <;> simp
      have hlen := congrArg List.length hfix
      rw [List.dropWhile_cons, if_pos hc'] at hlen
      have := (List.dropWhile_sublist (l := t) p).length_le
      simp only [List.length_cons] at hlen
      omega
    rw [List.reverse_cons, List.dropWhile_append]
    by_cases he : (t.reverse.dropWhile p).isEmpty = true
    · simp only [he, if_pos]
      simp [List.dropWhile_cons, hc]
    · simp only [he, if_neg, Bool.false_eq_true, not_false_iff]
      rw [List.reverse_append]
      simp [List.dropWhile_cons, hc]

theorem pystrip_idem (l : List Char) : pystrip (pystrip l) = pystrip l := by
  unfold pystrip
  have h1 : List.dropWhile pySpace (List.dropWhile pySpace l) = List.dropWhile pySpace l :=
    dropWhile_dropWhile pySpace l
  rw [dropWhile_rstrip_fix pySpace (List.dropWhile pySpace l) h1]
  rw [List.reverse_reverse, dropWhile_dropWhile]

/-!
  Claim C6 — idempotence of `clean_text`
-/

/-- Claim C6 (counterexample): the structural cleaning transform is NOT
idempotent.  On "[1[2]3]" the citation pass removes the inner "[2]" and,
since `re.sub` does not rescan, leaves "[13]"; a second application of
`clean_text` removes "[13]" as well, yielding the empty string. -/
theorem clean_text_not_idempotent :
    clean_text (clean_text "[1[2]3]".data) ≠ clean_text "[1[2]3]".data := by
  decide

/-- Claim C6 (amended): `clean_text` is idempotent on every input whose
cleaned output contains no residual pattern occurrence — no line span
between two `'|'`, no bracketed digit run, no `'#'` run followed by
whitespace, and no blank-line run.  (In general a removal can create a
fresh match that the single left-to-right pass misses, as in the
counterexample.) -/
theorem clean_text_idem_of_clean (t : List Char)
    (h1 : hasTable (clean_text t) = false) (h2 : hasCit (clean_text t) = false)
    (h3 : hasHdr (clean_text t) = false) (h4 : hasNl (clean_text t) = false) :
    clean_text (clean_text t) = clean_text t := by
  have hstrip : pystrip (clean_text t) = clean_text t := by
    have := pystrip_idem (sub_nl (sub_hdr (sub_cit (sub_table t))))
    simpa [clean_text] using this
  calc clean_text (clean_text t)
      = pystrip (sub_nl (sub_hdr (sub_cit (sub_table (clean_text t))))) := rfl
    _ = clean_text t := by
        rw [sub_table_id _ h1, sub_cit_id _ h2, sub_hdr_id _ h3, sub_nl_id _ h4, hstrip]

/-- Witness for C6 (amended) at the concrete input "abc def". -/
theorem clean_text_idem_of_clean_witness :
    clean_text (clean_text "abc def".data) = clean_text "abc def".data :=
  clean_text_idem_of_clean "abc def".data (by decide) (by decide) (by decide) (by decide)

/-!
  Lemmas: closed form of the chunking loop
-/

theorem chunksFrom_zero (text : List Char) (size overlap start : Nat)
    (hov : overlap < size) (h : text.length ≤ start) :
    chunksFrom text size overlap start = [] := by
  unfold chunksFrom
  have hz : text.length - start = 0 := Nat.sub_eq_zero_of_le h
  rw [hz, Nat.div_eq_of_lt (by omega)]
  rfl

/-- Step identity for the ceiling division counting the loop windows. -/
theorem ceilDiv_step (m s : Nat) (hs : 1 ≤ s) (hm : 1 ≤ m) :
    (m + s - 1) / s = (m - s + s - 1) / s + 1 := by
  by_cases hms : m ≤ s
  · have h0 : (m - s + s - 1) / s = 0 := by
      rw [Nat.sub_eq_zero_of_le hms]
      exact Nat.div_eq_of_lt (by omega)
    rw [h0]
    apply Nat.div_eq_of_lt_le
    · omega
    · omega
  · have h3 : m - s + s - 1 = m - 1 := by omega
    have h4 : m + s - 1 = (m - 1) + s := by omega
    rw [h3, h4, Nat.add_div_right _ (by omega)]

theorem chunksFrom_succ (text : List Char) (size overlap start : Nat)
    (hov : overlap < size) (h : start < text.length) :
    chunksFrom text size overlap start
      = ((text.drop start).take size)
          :: chunksFrom text size overlap (start + (size - overlap)) := by
  unfold chunksFrom
  have hcount : (text.length - start + (size - overlap) - 1) / (size - overlap)
      = (text.length - (start + (size - overlap)) + (size - overlap) - 1)
          / (size - overlap) + 1 := by
    have hrw : text.length - (start + (size - overlap))
        = (text.length - start) - (size - overlap) := by omega
    rw [hrw]
    exact ceilDiv_step (text.length - start) (size - overlap) (by omega) (by omega)
  rw [hcount, List.range_succ_eq_map, List.map_cons, List.map_map]
  refine congrArg₂ List.cons ?_ ?_
  · simp
  · refine List.map_congr_left ?_
    intro k _
    have harg : start + (k + 1) * (size - overlap)
        = (start + (size - overlap)) + k * (size - overlap) := by ring
    simp only [Function.comp, Nat.succ_eq_add_one]
    rw [harg]

theorem chunkFromFuel_eq (text : List Char) (size overlap : Nat) (hov : overlap < size) :
    ∀ (fuel start : Nat), 0 < fuel → text.length < start + fuel →
      chunkFromFuel fuel text size overlap start
        = some (chunksFrom text size overlap start) := by
  intro fuel
  induction fuel with
  | zero => intro start h0 _; omega
  | succ f ih =>
    intro start _ hlt
    by_cases hst : start < text.length
    · have hrec := ih (start + (size - overlap)) (by omega) (by omega)
      simp only [chunkFromFuel, if_pos hst, hrec]
      rw [chunksFrom_succ text size overlap start hov hst]
    · simp only [chunkFromFuel, if_neg hst]
      rw [chunksFrom_zero text size overlap start hov (by omega)]

theorem chunk_text_by_char_eq (text : List Char) (size overlap : Nat)
    (hov : overlap < size) :
    chunk_text_by_char text size overlap
      = if text.length ≤ size then [text] else chunksFrom text size overlap 0 := by
  unfold chunk_text_by_char
  by_cases h : text.length ≤ size
  · simp [h]
  · rw [if_neg h, if_neg h,
      chunkFromFuel_eq text size overlap hov (text.length + 1) 0 (by omega) (by omega)]
    rfl

/-!
  Claim C9 — termination of the chunking loop
-/

/-- Claim C9: under the contract `overlap < size`, the chunking loop
terminates for every input text — allotted `len(text) + 1` iterations of
fuel, the loop reaches its exit (the window start strictly increases by
`size - overlap ≥ 1` per iteration). -/
theorem chunk_loop_terminates (text : List Char) (size overlap : Nat)
    (hov : overlap < size) :
    (chunkFromFuel (text.length + 1) text size overlap 0).isSome = true := by
  rw [chunkFromFuel_eq text size overlap hov (text.length + 1) 0 (by omega) (by omega)]
  rfl

/-- Witness for C9 at a concrete input. -/
theorem chunk_loop_terminates_witness :
    (chunkFromFuel ("abcdef".data.length + 1) "abcdef".data 4 2 0).isSome = true :=
  chunk_loop_terminates "abcdef".data 4 2 (by decide)

/-!
  Claim C2 — chunk count
-/

/-- Claim C2 (counterexample): for `text = "abcdef"`, `size = 4`,
`overlap = 2` the chunker returns 3 chunks (`"abcd"`, `"cdef"`, `"ef"`),
not `ceil((len(text) - overlap) / (size - overlap)) = 2` as claimed: the
loop also emits a window at every start `k * (size - overlap) < len(text)`
even after a previous window already reached the end of the text. -/
theorem chunk_count_counterexample :
    (chunk_text_by_char "abcdef".data 4 2).length
      ≠ ("abcdef".data.length - 2 + (4 - 2) - 1) / (4 - 2) := by
  decide

/-- Claim C2 (amended): for `0 ≤ overlap < size` the chunker returns
exactly 1 chunk when `len(text) ≤ size`, and otherwise exactly
`ceil(len(text) / (size - overlap))` chunks (one window per start position
`k * (size - overlap) < len(text)`). -/
theorem chunk_count_amended (text : List Char) (size overlap : Nat)
    (hov : overlap < size) :
    (text.length ≤ size → (chunk_text_by_char text size overlap).length = 1)
    ∧ (size < text.length →
        (chunk_text_by_char text size overlap).length
          = (text.length + (size - overlap) - 1) / (size - overlap)) := by
  constructor
  · intro h
    rw [chunk_text_by_char_eq _ _ _ hov, if_pos h]
    rfl
  · intro h
    rw [chunk_text_by_char_eq _ _ _ hov, if_neg (by omega)]
    unfold chunksFrom
    rw [List.length_map, List.length_range, Nat.sub_zero]

/-- Witness for C2 (amended) at `"abcdef"`, size 4, overlap 2:
`ceil(6 / 2) = 3` chunks. -/
theorem chunk_count_amended_witness :
    (chunk_text_by_char "abcdef".data 4 2).length
      = ("abcdef".data.length + (4 - 2) - 1) / (4 - 2) :=
  (chunk_count_amended "abcdef".data 4 2 (by decide)).2 (by decide)

/-!
  Claim C7 — chunk coverage, bounded windows
-/

/-- Claim C7: under the contract `overlap < size`, (1) the k-th chunk is
the window of `size` characters starting `k * (size - overlap)` characters
in — consecutive chunks start `size - overlap` apart; (2) the union of
the chunks' character spans covers the whole text; (3) every chunk has
length at most `size`; (4) when `len(text) ≤ size` the single returned
chunk is the whole text. -/
theorem chunk_coverage (text : List Char) (size overlap : Nat)
    (hov : overlap < size) :
    (∀ (k : Nat) (hk : k < (chunk_text_by_char text size overlap).length),
        (chunk_text_by_char text size overlap)[k]
          = (text.drop (k * (size - overlap))).take size)
    ∧ (∀ i, i < text.length →
        ∃ k, k < (chunk_text_by_char text size overlap).length
          ∧ k * (size - overlap) ≤ i ∧ i < k * (size - overlap) + size)
    ∧ (∀ c ∈ chunk_text_by_char text size overlap, c.length ≤ size)
    ∧ (text.length ≤ size → chunk_text_by_char text size overlap = [text]) := by
  rw [chunk_text_by_char_eq _ _ _ hov]
  by_cases hle : text.length ≤ size
  · rw [if_pos hle]
    refine ⟨?_, ?_, ?_, fun _ => rfl⟩
    · intro k hk
      have hk0 : k = 0 := by simpa using hk
      subst hk0
      simp [List.take_of_length_le hle]
    · intro i hi
      exact ⟨0, by simp, by simp, by omega⟩
    · intro c hc
      rw [List.mem_singleton] at hc
      subst hc
      exact hle
  · rw [if_neg hle]
    refine ⟨?_, ?_, ?_, fun h => absurd h hle⟩
    · intro k hk
      simp [chunksFrom] at hk ⊢
    · intro i hi
      set s := size - overlap with hs
      have hs1 : 0 < s := by omega
      refine ⟨i / s, ?_, Nat.div_mul_le_self i s, ?_⟩
      · have hlen : (chunksFrom text size overlap 0).length
            = (text.length + s - 1) / s := by
          unfold chunksFrom
          rw [List.length_map, List.length_range, Nat.sub_zero]
        rw [hlen]
        have h1 : i / s ≤ (text.length - 1) / s := Nat.div_le_div_right (by omega)
        have h2 : (text.length + s - 1) / s = (text.length - 1) / s + 1 := by
          have hr : text.length + s - 1 = (text.length - 1) + s := by omega
          rw [hr, Nat.add_div_right _ hs1]
        omega
      · have hmod := Nat.div_add_mod i s
        have hlt : i % s < s := Nat.mod_lt i hs1
        have hub : i < i / s * s + s := by
          calc i = s * (i / s) + i % s := hmod.symm
            _ < s * (i / s) + s := by omega
            _ = i / s * s + s := by ring
        have hss : s ≤ size := Nat.sub_le size overlap
        omega
    · intro c hc
      unfold chunksFrom at hc
      rw [List.mem_map] at hc
      obtain ⟨k, _, hk⟩ := hc
      rw [← hk, List.length_take]
      exact Nat.min_le_left _ _

/-- Witness for C7 at the concrete input `"abc"`, size 4, overlap 2. -/
theorem chunk_coverage_witness :
    chunk_text_by_char "abc".data 4 2 = ["abc".data] :=
  (chunk_coverage "abc".data 4 2 (by decide)).2.2.2 (by decide)


/-!
  Lemmas: the ingestion pipeline
-/

theorem runMap_no_delete (env : IngestEnv) (prompts : PromptSet) :
    ∀ (l : List (List Char)) (n : String),
      Effect.deleteCall n ∉ (runMap env prompts l).2 := by
  intro l
  induction l with
  | nil => intro n h; simp [runMap] at h
  | cons c cs ih =>
    intro n h
    rw [runMap] at h
    rcases henv : env.mapLLM prompts c with e | s
    · rw [henv] at h
      simp at h
    · rw [henv] at h
      rcases hrec : runMap env prompts cs with ⟨res, effs⟩
      rw [hrec] at h
      have hih : Effect.deleteCall n ∉ effs := by
        have := ih n
        rw [hrec] at this
        exact this
      cases res with
      | error e =>
        simp only [List.mem_cons] at h
        rcases h with h | h
        · exact Effect.noConfusion h
        · exact hih h
      | ok rest =>
        simp only [List.mem_cons] at h
        rcases h with h | h
        · exact Effect.noConfusion h
        · exact hih h

theorem runMap_snd_no_delete (env : IngestEnv) (prompts : PromptSet)
    {l : List (List Char)} {res : Except String (List String)} {effs : List Effect}
    (heq : runMap env prompts l = (res, effs)) (n : String) :
    Effect.deleteCall n ∉ effs := by
  have := runMap_no_delete env prompts l n
  rw [heq] at this
  exact this

theorem lookup_rollback (store : Store) (docId : String) :
    (rollback store docId).lookup docId = none := by
  induction store with
  | nil => rfl
  | cons kv t ih =>
    obtain ⟨k, v⟩ := kv
    by_cases h : k = docId
    · subst h
      simpa [rollback, List.filter_cons] using ih
    · have hb : (k != docId) = true := by simp [h]
      have hb2 : (docId == k) = false := by
        simp only [beq_eq_false_iff_ne]
        exact fun hh => h hh.symm
      simp only [rollback, List.filter_cons, hb, if_true, List.lookup, hb2]
      simpa [rollback] using ih

/-- The `try` block never calls `delete_collection`. -/
theorem tryIngest_no_delete (env : IngestEnv) (store : Store)
    (document_id : String) (prompts : PromptSet) :
    ∀ n, Effect.deleteCall n ∉ (tryIngest env store document_id prompts).2 := by
  intro n h
  unfold tryIngest at h
  split at h
  · simp at h
  · split at h
    · simp at h
    · split at h
      · rename_i e effs heq
        simp at h
        exact absurd h (runMap_snd_no_delete env prompts heq n)
      · rename_i cs effs heq
        split at h
        · simp at h
          exact absurd h (runMap_snd_no_delete env prompts heq n)
        · split at h
          · simp at h
            exact absurd h (runMap_snd_no_delete env prompts heq n)
          · split at h
            · simp at h
              exact absurd h (runMap_snd_no_delete env prompts heq n)
            · split at h
              · simp at h
                exact absurd h (runMap_snd_no_delete env prompts heq n)
              · split at h
                · simp at h
                  exact absurd h (runMap_snd_no_delete env prompts heq n)
                · split at h
                  · simp at h
                    exact absurd h (runMap_snd_no_delete env prompts heq n)
                  · simp at h
                    exact absurd h (runMap_snd_no_delete env prompts heq n)

/-- Case analysis of `/summarize` on a `.pdf` filename: either every
collaborator step succeeded and no collection was deleted, or the request
failed with a 500, the ephemeral collection named by this request's
document id is absent from the final store, its deletion was attempted,
and only that collection name was ever passed to `delete_collection`. -/
theorem summarize_pdf_spec (env : IngestEnv) (store : Store)
    (document_id filename lang : String)
    (hp : pyEndswith filename ".pdf" = true) :
    ∃ res store' effs,
      summarize_pdf env store document_id filename lang = (res, store', effs)
      ∧ ((res.isOk = true ∧ ∀ n, Effect.deleteCall n ∉ effs)
        ∨ ((∃ d, res = IngestResult.err 500 d)
          ∧ store'.lookup document_id = none
          ∧ Effect.deleteCall document_id ∈ effs
          ∧ ∀ n, Effect.deleteCall n ∈ effs → n = document_id)) := by
  have hnd := tryIngest_no_delete env store document_id (promptsFor lang)
  unfold summarize_pdf
  rw [if_pos hp]
  rcases ht : tryIngest env store document_id (promptsFor lang) with ⟨tres, teffs⟩
  have hnd' : ∀ n, Effect.deleteCall n ∉ teffs := by
    intro n
    have := hnd n
    rw [ht] at this
    exact this
  cases tres with
  | error e =>
    refine ⟨_, _, _, rfl,
      Or.inr ⟨⟨_, rfl⟩, lookup_rollback store document_id, by simp, ?_⟩⟩
    intro n h
    rcases List.mem_append.mp h with h | h
    · exact absurd h (hnd' n)
    · simpa using h
  | ok payload =>
    obtain ⟨fs, chunks⟩ := payload
    exact ⟨_, _, _, rfl, Or.inl ⟨rfl, hnd'⟩⟩

/-!
  Claim C10 — non-PDF uploads are rejected before any work
-/

/-- Claim C10: an ingestion request whose uploaded file's name does not
end in ".pdf" is rejected with HTTP 400 before any conversion,
summarization, or collection operation: the collection store is returned
unchanged and the collaborator-call trace is empty. -/
theorem non_pdf_rejected_early (env : IngestEnv) (store : Store)
    (document_id filename lang : String)
    (h : pyEndswith filename ".pdf" = false) :
    summarize_pdf env store document_id filename lang
      = (IngestResult.err 400 "Invalid file type. Please upload a PDF.", store, []) := by
  simp [summarize_pdf, h]

/-- Witness for C10 at the concrete filename "doc.txt". -/
theorem non_pdf_rejected_early_witness :
    summarize_pdf envFailConvert [] "d1" "doc.txt" "en"
      = (IngestResult.err 400 "Invalid file type. Please upload a PDF.", [], []) :=
  non_pdf_rejected_early envFailConvert [] "d1" "doc.txt" "en" (by decide)

/-!
  Claim C3 — failure after upload triggers rollback
-/

/-- Claim C3: for every `.pdf` ingestion request, if any step inside the
`try` block fails (conversion, extraction-emptiness, any map or reduce
language-model call, JSON parsing, embedding, collection creation or
population), the request surfaces a 500 error, the deletion of the
ephemeral collection named by this request's document id is attempted
(best-effort, errors swallowed), and that collection is absent from the
final store — no partially populated ephemeral collection remains
queryable. -/
theorem ingest_failure_rollback (env : IngestEnv) (store : Store)
    (document_id filename lang : String)
    (hp : pyEndswith filename ".pdf" = true)
    (hfail : (summarize_pdf env store document_id filename lang).1.isOk = false) :
    (∃ d, (summarize_pdf env store document_id filename lang).1
        = IngestResult.err 500 d)
    ∧ Effect.deleteCall document_id
        ∈ (summarize_pdf env store document_id filename lang).2.2
    ∧ (summarize_pdf env store document_id filename lang).2.1.lookup document_id
        = none := by
  obtain ⟨res, store', effs, heq, hd⟩ :=
    summarize_pdf_spec env store document_id filename lang hp
  rw [heq] at hfail ⊢
  rcases hd with ⟨hok, _⟩ | ⟨h1, h2, h3, _⟩
  · exact absurd hfail (by simp [hok])
  · exact ⟨h1, h3, h2⟩

/-- Witness for C3: a request whose conversion step raises. -/
theorem ingest_failure_rollback_witness :
    Effect.deleteCall "d1"
      ∈ (summarize_pdf envFailConvert [] "d1" "doc.pdf" "en").2.2 :=
  (ingest_failure_rollback envFailConvert [] "d1" "doc.pdf" "en"
    (by decide) (by decide)).2.1

/-!
  Claim C8 — only the per-document collection is ever deleted
-/

/-- Claim C8: in every execution of `/summarize` the only name ever
passed to `delete_collection` is this request's freshly generated
document id; in particular the main collection `main_research_papers` is
never deleted (`/qa` performs no deletions at all, as
`question_answering` does not touch the store). -/
theorem delete_only_document_collection (env : IngestEnv) (store : Store)
    (document_id filename lang : String) :
    (∀ n, Effect.deleteCall n
        ∈ (summarize_pdf env store document_id filename lang).2.2
        → n = document_id)
    ∧ (document_id ≠ "main_research_papers" →
        Effect.deleteCall "main_research_papers"
          ∉ (summarize_pdf env store document_id filename lang).2.2) := by
  have main : ∀ n, Effect.deleteCall n
      ∈ (summarize_pdf env store document_id filename lang).2.2
      → n = document_id := by
    by_cases hp : pyEndswith filename ".pdf" = true
    · obtain ⟨res, store', effs, heq, hd⟩ :=
        summarize_pdf_spec env store document_id filename lang hp
      rw [heq]
      intro n h
      rcases hd with ⟨_, hno⟩ | ⟨_, _, _, h4⟩
      · exact absurd h (hno n)
      · exact h4 n h
    · have hb : pyEndswith filename ".pdf" = false := by
        revert hp
        cases pyEndswith filename ".pdf" <;> simp
      intro n h
      simp [summarize_pdf, hb] at h
  exact ⟨main, fun hne h => hne (main _ h).symm⟩

/-- Witness for C8: a failing request deletes only its own collection. -/
theorem delete_only_document_collection_witness :
    Effect.deleteCall "main_research_papers"
      ∉ (summarize_pdf envFailConvert [] "d1" "doc.pdf" "en").2.2 :=
  (delete_only_document_collection envFailConvert [] "d1" "doc.pdf" "en").2
    (by decide)

/-!
  Claim C4 — empty reduce-phase values bypass the sentinel
-/

/-- Claim C4 (code evaluated at the failing input): the reduce prompt
instructs the model to return an empty string for information it cannot
find, but `dict.get(key, "Tidak ditemukan.")` substitutes the sentinel
only for a *missing* key — a key present with the empty-string value is
passed through verbatim, so the summary field is `""`, not the sentinel,
contradicting the claim. -/
theorem empty_value_bypasses_sentinel :
    (buildFinalSummary
        [("research_objective", ""), ("methods", "m"),
          ("main_results", "r"), ("conclusions", "c")]).tujuan = ""
    ∧ ("" : String) ≠ "Tidak ditemukan." := by
  exact ⟨rfl, by decide⟩

/-!
  Claim C5 — language selection and the sentinel
-/

/-- Claim C5 (counterexample): the "not found" sentinel is NOT selected
by the language code.  For a successfully ingested request whose
reduce-phase JSON object has no keys, the `lang = "en"` request receives
the fixed Indonesian sentinel "Tidak ditemukan." in all four fields —
identical to the `lang = "id"` request's response. -/
theorem sentinel_not_localized :
    (summarize_pdf envOk [] "d1" "doc.pdf" "en").1
      = IngestResult.ok "doc.pdf"
          { tujuan := "Tidak ditemukan.", metode := "Tidak ditemukan.",
            hasil := "Tidak ditemukan.", kesimpulan := "Tidak ditemukan." } "d1"
    ∧ (summarize_pdf envOk [] "d1" "doc.pdf" "en").1
      = (summarize_pdf envOk [] "d1" "doc.pdf" "id").1 := by
  exact ⟨by decide, by decide⟩

/-- Claim C5 (amended): the language code selects the system/user prompt
texts, with any code other than "en" and "id" treated as "en"; the "not
found" sentinel of the structured summary, however, is the fixed
Indonesian string "Tidak ditemukan." regardless of the language code
(`buildFinalSummary` takes no language argument at all). -/
theorem prompts_default_and_fixed_sentinel :
    (∀ lang, lang ≠ "en" → lang ≠ "id" → promptsFor lang = promptsFor "en")
    ∧ (∀ obj : List (String × String), obj.lookup "research_objective" = none →
        (buildFinalSummary obj).tujuan = "Tidak ditemukan.")
    ∧ (∀ obj : List (String × String), obj.lookup "methods" = none →
        (buildFinalSummary obj).metode = "Tidak ditemukan.")
    ∧ (∀ obj : List (String × String), obj.lookup "main_results" = none →
        (buildFinalSummary obj).hasil = "Tidak ditemukan.")
    ∧ (∀ obj : List (String × String), obj.lookup "conclusions" = none →
        (buildFinalSummary obj).kesimpulan = "Tidak ditemukan.") := by
  refine ⟨?_, ?_, ?_, ?_, ?_⟩
  · intro lang h1 h2
    simp [promptsFor, normalizeLang, PROMPT_TEMPLATES, h1, h2]
  all_goals intro obj h
  all_goals simp [buildFinalSummary, jsonGet, h]

/-- Witness for C5 (amended): an unsupported code falls back to English
prompts. -/
theorem prompts_default_and_fixed_sentinel_witness :
    promptsFor "fr" = promptsFor "en" :=
  prompts_default_and_fixed_sentinel.1 "fr" (by decide) (by decide)

/-!
  Claim C1 — two-tier retrieval rule of `/qa`
-/

/-- Claim C1: tier selection of `/qa` follows the fixed two-tier rule.
(1) When a document-scoped collection id is supplied (truthy) and its
query returns a nearest distance `d1 < 1.0`, the answer is generated by
one LLM call on the returned chunks (up to 2) joined with a blank line —
regardless of the main collection's result.  (2) Otherwise, when the main
collection's query returns a nearest distance `d2 < 1.2`, the answer is
generated from that result.  (3) Otherwise the fixed no-answer message
for the requested language is returned, and no language-model call is
made (`QAOutcome.fixedMessage`). -/
theorem qa_two_tier_rule (env : QAEnv) (req : QAReq) :
    (∀ (t : String) (d : Rat) (rest : List (String × Rat)),
        truthyId req.document_id = true → env.docResult = some ((t, d) :: rest) →
        d < 1 →
        question_answering env req
          = QAOutcome.llmAnswer (String.intercalate "\n\n" (t :: rest.map Prod.fst)))
    ∧ (tier1Context env req = none →
        ∀ (t : String) (d : Rat) (rest : List (String × Rat)),
          env.mainResult = some ((t, d) :: rest) → d < 6/5 →
          question_answering env req
            = QAOutcome.llmAnswer (String.intercalate "\n\n" (t :: rest.map Prod.fst)))
    ∧ (tier1Context env req = none → tier2Context env = none →
        question_answering env req
          = QAOutcome.fixedMessage (NO_CONTEXT_MESSAGES req.lang)) := by
  refine ⟨?_, ?_, ?_⟩
  · intro t d rest ht hdoc hd
    have h1 : tier1Context env req
        = some (String.intercalate "\n\n" (t :: rest.map Prod.fst)) := by
      simp [tier1Context, ht, hdoc, hd]
    simp [question_answering, h1]
  · intro h1 t d rest hmain hd
    have h2 : tier2Context env
        = some (String.intercalate "\n\n" (t :: rest.map Prod.fst)) := by
      simp [tier2Context, hmain, hd]
    simp [question_answering, h1, h2]
  · intro h1 h2
    simp [question_answering, h1, h2]

/-- Witness for C1: a truthy document id whose collection query returns
nearest distance 1/2 < 1.0 admits tier 1 even though the main collection
result (distance 2) would not admit. -/
theorem qa_two_tier_rule_witness :
    question_answering qaEnvW qaReqW
      = QAOutcome.llmAnswer (String.intercalate "\n\n" ["ctx"]) :=
  (qa_two_tier_rule qaEnvW qaReqW).1 "ctx" (1/2) [] (by decide) rfl (by norm_num)
